import Mathlib

/-!
Verification of the core of the telegram-discord bridge: the configuration
validator (`src/bridge/config/config.py`) and the message history store
(`src/bridge/history/history.py`), shallowly embedded in Lean.

Python dictionary accesses `d[k]` that can raise `KeyError` are modelled by
`pyLookup` over `Option` fields in `Except PyError`; insertion-ordered Python
dicts are modelled as association lists (`alistGet` / `alistPut`, where
`alistPut` keeps the position of an existing key, exactly like a CPython dict
update).
-/

set_option linter.unusedVariables false

namespace Bridge

/-- Python exceptions that escape the embedded code: `KeyError` from a missing
dictionary key, and `json.JSONDecodeError` from `json.loads` on a file that
exists but holds no JSON document (only `FileNotFoundError` is caught by
`load_mapping_data`). -/
inductive PyError where
  | keyError (key : String)
  | jsonDecodeError
deriving DecidableEq, Repr

/-- `d[k]`: a Python dictionary access that raises `KeyError k` when the key is
absent. -/
def pyLookup {α : Type} (v : Option α) (key : String) : Except PyError α :=
  match v with
  | some x => .ok x
  | none => .error (.keyError key)

/-- First-position-preserving association-list insert, matching the update
semantics of an insertion-ordered CPython dict. -/
def alistPut {α β : Type} [DecidableEq α] : List (α × β) → α → β → List (α × β)
  | [], key, val => [(key, val)]
  | (k, v) :: rest, key, val =>
    if k = key then (key, val) :: rest else (k, v) :: alistPut rest key val

/-- Association-list lookup (`dict.get`). -/
def alistGet {α β : Type} [DecidableEq α] : List (α × β) → α → Option β
  | [], _ => none
  | (k, v) :: rest, key => if k = key then some v else alistGet rest key

/-- `a.intersection(b)` on name sets, rendered on lists: the sub-list of `a`
whose elements occur in `b`.  Only emptiness/non-emptiness of the result is
relied on, which agrees with Python set intersection. -/
def listInter (a b : List String) : List String :=
  a.filter (fun x => x ∈ b)

/-- Python `str.lower()` (the hashtag names in a configuration are ASCII, so
per-character lowering matches). -/
def strLower (s : String) : String :=
  String.mk (s.data.map Char.toLower)

/-! ### Configuration document model (`src/bridge/config/config.py`)

The raw YAML document handed to `Config.validate_config`.  A field of type
`Option _` is a dictionary key that may be absent (access raises `KeyError`).
A channel id in the document may be any YAML scalar; the validator only
distinguishes integers from everything else (`isinstance(_, int)`), so
non-integer scalars are collapsed into their string rendering. -/

/-- A hashtag rule entry `{ name: string, override_mention_everyone: bool? }`.
(`tag["name"]` on a name-less tag would raise `KeyError`; no claim exercises
that, so `name` is kept total.) -/
structure HashtagRule where
  name : String
  override_mention_everyone : Option Bool
deriving DecidableEq, Repr

/-- A channel id value: an integer, or a non-integer scalar kept as its string
rendering. -/
inductive ChanId where
  | int (n : Int)
  | str (s : String)
deriving DecidableEq, Repr

/-- Python `str(value)` as interpolated into the error messages. -/
def chanRepr : ChanId → String
  | .int n => toString n
  | .str s => s

/-- `isinstance(value, int)`. -/
def chanIsInt : ChanId → Bool
  | .int _ => true
  | .str _ => false

/-- One entry of the `telegram_forwarders` list. -/
structure ForwarderDoc where
  forwarder_name : Option String
  tg_channel_id : Option ChanId
  discord_channel_id : Option ChanId
  forward_everything : Option Bool
  forward_hashtags : Option (List HashtagRule)
  excluded_hashtags : Option (List HashtagRule)
  mention_everyone : Option Bool
deriving DecidableEq, Repr

/-- The `openai` section.  `sentiment_analysis_prompt` may be present but null
(`is None` check), hence the nested `Option`. -/
structure OpenAIDoc where
  enabled : Option Bool
  api_key : Option String
  organization : Option String
  sentiment_analysis_prompt : Option (Option String)
deriving DecidableEq, Repr

/-- The whole configuration document.  `application`, `logger`, `telegram` and
`discord` matter to the claims only through their presence (the
`required_keys` check in `Config.load`), so they are presence-only fields. -/
structure ConfigDoc where
  application : Option Unit
  logger : Option Unit
  telegram : Option Unit
  discord : Option Unit
  openai : Option OpenAIDoc
  telegram_forwarders : Option (List ForwarderDoc)
deriving DecidableEq, Repr

/-- The `required_keys` loop of `Config.load`: `application`, `logger`,
`telegram`, `discord` and `telegram_forwarders` must all be present (note that
`openai` is not in the list). -/
def requiredKeysPresent (c : ConfigDoc) : Bool :=
  c.application.isSome && c.logger.isSome && c.telegram.isSome &&
    c.discord.isSome && c.telegram_forwarders.isSome

/-- `Config.get_forward_hashtags`: the `forward_hashtags` list, or `[]` when
the key is absent. -/
def get_forward_hashtags (f : ForwarderDoc) : List HashtagRule :=
  match f.forward_hashtags with
  | some l => l
  | none => []

/-- `Config.get_excluded_hashtags`: the `excluded_hashtags` list, or `[]` when
the key is absent. -/
def get_excluded_hashtags (f : ForwarderDoc) : List HashtagRule :=
  match f.excluded_hashtags with
  | some l => l
  | none => []

/-- `Config.validate_openai_enabled`, including the left-to-right
short-circuit of the `or` chain (each key is read only if the previous test
failed to settle the condition). -/
def validate_openai_enabled (c : OpenAIDoc) : Except PyError (Bool × String) :=
  match pyLookup c.enabled "enabled" with
  | .error e => .error e
  | .ok enabled =>
    if enabled then
      match pyLookup c.api_key "api_key" with
      | .error e => .error e
      | .ok apiKey =>
        if apiKey = "" then
          .ok (false, "Invalid configuration: `api_key`, `organization`, and `sentiment_analysis_prompt` must be set when `enabled` is True.")
        else
          match pyLookup c.organization "organization" with
          | .error e => .error e
          | .ok org =>
            if org = "" then
              .ok (false, "Invalid configuration: `api_key`, `organization`, and `sentiment_analysis_prompt` must be set when `enabled` is True.")
            else
              match pyLookup c.sentiment_analysis_prompt "sentiment_analysis_prompt" with
              | .error e => .error e
              | .ok prompt =>
                if prompt.isNone then
                  .ok (false, "Invalid configuration: `api_key`, `organization`, and `sentiment_analysis_prompt` must be set when `enabled` is True.")
                else
                  .ok (true, "")
    else
      .ok (true, "")

/-- `Config.validate_forwarder_types`: both ids are read first (either read
may raise `KeyError`), then the two `isinstance` checks run in order. -/
def validate_forwarder_types (f : ForwarderDoc) : Except PyError (Bool × String) :=
  match pyLookup f.tg_channel_id "tg_channel_id" with
  | .error e => .error e
  | .ok tg =>
    match pyLookup f.discord_channel_id "discord_channel_id" with
    | .error e => .error e
    | .ok dc =>
      if !chanIsInt tg then
        .ok (false, "Invalid configuration: `tg_channel_id` must be an integer: forwarder with `tg_channel_id` " ++ chanRepr tg)
      else if !chanIsInt dc then
        .ok (false, "Invalid configuration: `discord_channel_id` must be an integer: forwarder with `tg_channel_id` " ++ chanRepr tg)
      else
        .ok (true, "")

/-- Python `str((a, b))` for the duplicate-combination message. -/
def pairRepr (p : ChanId × ChanId) : String :=
  "(" ++ chanRepr p.1 ++ ", " ++ chanRepr p.2 ++ ")"

/-- `Config.validate_forwarder_combinations`.  The running set
`forwarder_combinations` is threaded explicitly (the Python function mutates
its argument by `add`); the combination is appended only when it was not
already present, which preserves set semantics. -/
def validate_forwarder_combinations (f : ForwarderDoc)
    (combos : List (ChanId × ChanId)) :
    Except PyError (Bool × String × List (ChanId × ChanId)) :=
  match pyLookup f.tg_channel_id "tg_channel_id" with
  | .error e => .error e
  | .ok tg =>
    match pyLookup f.discord_channel_id "discord_channel_id" with
    | .error e => .error e
    | .ok dc =>
      if (tg, dc) ∈ combos then
        .ok (false, "Invalid configuration: duplicate forwarder with combination " ++ pairRepr (tg, dc), combos)
      else
        .ok (true, "", combos ++ [(tg, dc)])

/-- `Config.validate_mention_everyone_and_override` (`tag.get` with default
`False` never raises). -/
def validate_mention_everyone_and_override (f : ForwarderDoc)
    (forward_hashtags : List HashtagRule) : Except PyError (Bool × String) :=
  match pyLookup f.tg_channel_id "tg_channel_id" with
  | .error e => .error e
  | .ok tg =>
    match pyLookup f.mention_everyone "mention_everyone" with
    | .error e => .error e
    | .ok m =>
      if m && forward_hashtags.any (fun t => t.override_mention_everyone.getD false) then
        .ok (false, "Invalid configuration: `override_mention_everyone` has no effect when `mention_everyone` set to True: forwarder with `tg_channel_id` " ++ chanRepr tg)
      else
        .ok (true, "")

/-- `Config.validate_hashtags_overlap`.  The Python set comprehensions and
their intersection are rendered on lists; the interpolated set is rendered
with list `toString` (the exact byte rendering of a Python set literal is not
claim-relevant). -/
def validate_hashtags_overlap (f : ForwarderDoc)
    (forward_hashtags excluded_hashtags : List HashtagRule) :
    Except PyError (Bool × String) :=
  match pyLookup f.tg_channel_id "tg_channel_id" with
  | .error e => .error e
  | .ok tg =>
    let fnames := forward_hashtags.map (fun t => strLower t.name)
    let enames := excluded_hashtags.map (fun t => strLower t.name)
    let common := listInter fnames enames
    if common ≠ [] then
      .ok (false, "Invalid configuration: overlapping hashtags " ++ toString common ++ " found in forward_hashtags and excluded_hashtags for forwarder with `tg_channel_id` " ++ chanRepr tg)
    else
      .ok (true, "")

/-- The lowered name set built inside `Config.validate_shared_hashtags`:
`{tag["name"].lower() for tag in forwarder.get("forward_hashtags", [])} if
forwarder.get("forward_hashtags") else set()` — an absent key or an empty (or
falsy) list gives the empty set. -/
def sharedNames (f : ForwarderDoc) : List String :=
  match f.forward_hashtags with
  | some l => if l.isEmpty then [] else l.map (fun t => strLower t.name)
  | none => []

/-- The loop of `Config.validate_shared_hashtags`, with the
`tg_channel_hashtags` grouping dict threaded explicitly.  Within one group the
incoming set is intersected against every previously recorded set in order;
the first non-empty intersection aborts the whole validation with an error. -/
def validate_shared_hashtags_loop :
    List ForwarderDoc → List (ChanId × List (List String)) →
    Except PyError (Bool × String)
  | [], _ => .ok (true, "")
  | f :: rest, groups =>
    match pyLookup f.tg_channel_id "tg_channel_id" with
    | .error e => .error e
    | .ok tg =>
      let fh := sharedNames f
      if fh.isEmpty then
        validate_shared_hashtags_loop rest groups
      else
        match alistGet groups tg with
        | none => validate_shared_hashtags_loop rest (alistPut groups tg [fh])
        | some existing =>
          match existing.find? (fun s => !(listInter s fh).isEmpty) with
          | some s =>
            .ok (false, "Shared hashtags " ++ toString (listInter s fh) ++ " found for forwarders with tg_channel_id " ++ chanRepr tg ++ ". The same message will be forwarded multiple times.")
          | none =>
            validate_shared_hashtags_loop rest (alistPut groups tg (existing ++ [fh]))

/-- `Config.validate_shared_hashtags`. -/
def validate_shared_hashtags (forwarders : List ForwarderDoc) :
    Except PyError (Bool × String) :=
  validate_shared_hashtags_loop forwarders []

/-- The `forward_hashtags`-required check at the top of the loop body of
`Config.validate_config`.  The `and` in
`len(forward_hashtags) <= 0 and forwarder["forward_everything"] is False`
short-circuits, so `forward_everything` is only read when the hashtag list is
empty; `fes` is the current `forwarder_error_string`. -/
def forwardHashtagsCheck (f : ForwarderDoc) (fes : String) (errors : List String) :
    Except PyError (List String) :=
  if (get_forward_hashtags f).length ≤ 0 then
    match pyLookup f.forward_everything "forward_everything" with
    | .error e => .error e
    | .ok fe =>
      if fe = false then
        .ok (errors ++ [fes ++ " `forward_hashtags` must be set when `forward_everything` is False"])
      else
        .ok errors
  else
    .ok errors

/-- The per-forwarder loop of `Config.validate_config`.  State threaded
through the loop: the accumulating `forwarder_error_string` (note that the
source initialises it once *before* the loop, so the `forwarder name: _` tags
accumulate across iterations), the `errors` list, and the
`forwarder_combinations` set.  Each check's boolean result only guards its own
append (`valid` is dead across checks). -/
def forwarderLoop :
    List ForwarderDoc → String → List String → List (ChanId × ChanId) →
    Except PyError (String × List String × List (ChanId × ChanId))
  | [], fes, errors, combos => .ok (fes, errors, combos)
  | f :: rest, fes, errors, combos =>
    match pyLookup f.forwarder_name "forwarder_name" with
    | .error e => .error e
    | .ok name =>
      let fes := fes ++ " forwarder name: " ++ name
      let forward_hashtags := get_forward_hashtags f
      match forwardHashtagsCheck f fes errors with
      | .error e => .error e
      | .ok errors =>
        let excluded_hashtags := get_excluded_hashtags f
        match validate_forwarder_types f with
        | .error e => .error e
        | .ok (v, err) =>
          let errors := if v then errors else errors ++ [fes ++ " " ++ err]
          match validate_forwarder_combinations f combos with
          | .error e => .error e
          | .ok (v, err, combos) =>
            let errors := if v then errors else errors ++ [fes ++ " " ++ err]
            match validate_mention_everyone_and_override f forward_hashtags with
            | .error e => .error e
            | .ok (v, err) =>
              let errors := if v then errors else errors ++ [fes ++ " " ++ err]
              match validate_hashtags_overlap f forward_hashtags excluded_hashtags with
              | .error e => .error e
              | .ok (v, err) =>
                let errors := if v then errors else errors ++ [fes ++ " " ++ err]
                forwarderLoop rest fes errors combos

/-- `Config.validate_config`.  The Python `valid` local is reassigned by every
check and finally overwritten by `valid = not errors`, so the returned flag is
exactly the emptiness of the accumulated error list; only the error
accumulation is threaded here. -/
def validate_config (config : ConfigDoc) : Except PyError (Bool × List String) :=
  match pyLookup config.telegram_forwarders "telegram_forwarders" with
  | .error e => .error e
  | .ok forwarders =>
    match pyLookup config.openai "openai" with
    | .error e => .error e
    | .ok openaiSection =>
      match validate_openai_enabled openaiSection with
      | .error e => .error e
      | .ok (v, err) =>
        let errors : List String := if v then [] else [err]
        match forwarderLoop forwarders "Invalid forwarder configuration:" errors [] with
        | .error e => .error e
        | .ok (_, errors, _) =>
          match validate_shared_hashtags forwarders with
          | .error e => .error e
          | .ok (v, err) =>
            let errors := if v then errors else errors ++ [err]
            .ok (errors.isEmpty, errors)

/-! ### History store model (`src/bridge/history/history.py`)

In-memory mapping values: `MessageHistoryHandler.save_mapping_data` stores the
integer `discord_message_id`, while `save_missed_message` stores the tuple
`(discord_channel_id, exception)` — into the *same* dictionary, because both
functions obtain their dictionary from `load_mapping_data`, i.e. they alias
`_mapping_data_cache`.  Keys are the integer `tg_message_id` when written by
the handler, and its decimal string after a JSON round trip (JSON object keys
are always strings). -/

/-- A key of the inner per-forwarder dictionary. -/
inductive JKey where
  | kInt (n : Int)
  | kStr (s : String)
deriving DecidableEq, Repr

/-- The decimal value of a digit string (helper for Python `int`). -/
def strToNatAux (l : List Char) : Nat :=
  l.foldl (fun acc c => acc * 10 + (c.toNat - 48)) 0

/-- Python `int(s)` on the decimal strings the handler produces (optional
leading minus sign, then digits).  `int` on a non-numeric string would raise
`ValueError`, which no execution of the embedded code reaches. -/
def strToInt (s : String) : Int :=
  match s.data with
  | '-' :: rest => -(strToNatAux rest : Int)
  | l => (strToNatAux l : Int)

/-- `int(key)` as used by `max(forwarder_data, key=int)` and
`int(last_tg_message_id)`. -/
def keyInt : JKey → Int
  | .kInt n => n
  | .kStr s => strToInt s

/-- A value of the inner per-forwarder dictionary: a Discord message id
(written by `save_mapping_data`) or a `(discord_channel_id, exception)` pair
(written by `save_missed_message`; the exception is kept as its string
rendering).  A JSON round trip turns the Python tuple into a list, which is
not distinguished here. -/
inductive JVal where
  | vInt (n : Int)
  | vPair (channel : Int) (exc : String)
deriving DecidableEq, Repr

/-- The in-memory mapping: forwarder name to inner message dictionary, both
levels insertion-ordered association lists. -/
abbrev Mapping : Type := List (String × List (JKey × JVal))

/-- What `json.dumps` followed by `json.loads` does to a key: integer keys
come back as their decimal strings. -/
def serializeKey : JKey → JKey
  | .kInt n => .kStr (toString n)
  | .kStr s => .kStr s

/-- The JSON round trip of a whole mapping: every inner key is stringified,
values are unchanged.  (Two inner keys such as `100` and `"100"` would collide
in the emitted JSON text; the handler never produces that situation and no
claim exercises it.) -/
def serializeMapping (m : Mapping) : Mapping :=
  m.map (fun p => (p.1, p.2.map (fun q => (serializeKey q.1, q.2))))

/-- JSON string quoting for `json.dumps` (escaping of `"` and backslash; no
control characters occur in the embedded executions). -/
def jstr (s : String) : String :=
  "\"" ++ String.join (s.data.map (fun c =>
    if c = '\\' then "\\\\" else if c = '"' then "\\\"" else String.singleton c)) ++ "\""

/-- A serialized inner key (`json.dumps` renders an integer dict key as a
quoted decimal). -/
def jkeyStr : JKey → String
  | .kInt n => jstr (toString n)
  | .kStr s => jstr s

/-- A serialized inner value at nesting depth 2 (`indent=4`). -/
def jvalStr : JVal → String
  | .vInt n => toString n
  | .vPair c e => "[\n            " ++ toString c ++ ",\n            " ++ jstr e ++ "\n        ]"

/-- A serialized inner dictionary at nesting depth 1 (`indent=4`). -/
def dumpsInner (inner : List (JKey × JVal)) : String :=
  if inner.isEmpty then "\x7b\x7d" else
    "\x7b\n" ++ String.intercalate ",\n"
      (inner.map (fun q => "        " ++ jkeyStr q.1 ++ ": " ++ jvalStr q.2)) ++ "\n    \x7d"

/-- `json.dumps(mapping_data, indent=4)`. -/
def dumps (m : Mapping) : String :=
  if m.isEmpty then "\x7b\x7d" else
    "\x7b\n" ++ String.intercalate ",\n"
      (m.map (fun p => "    " ++ jstr p.1 ++ ": " ++ dumpsInner p.2)) ++ "\n\x7d"

/-- The durable state of one history file: missing (`FileNotFoundError` on
open/stat), zero bytes (after `open(file, "w").close()` truncation), or the
text `dumps m` written by a save. -/
inductive FileState where
  | absent
  | empty
  | json (m : Mapping)
deriving DecidableEq, Repr

/-- `os.stat(file).st_size` in bytes for a present file (the embedded
executions write ASCII only, so bytes = characters). -/
def fileSize : FileState → Nat
  | .absent => 0
  | .empty => 0
  | .json m => (dumps m).length

/-- The state of one `MessageHistoryHandler` process plus its two durable
files. -/
structure HistoryState where
  cache : Option Mapping
  historyFile : FileState
  missedFile : FileState
deriving DecidableEq, Repr

/-- `MessageHistoryHandler.load_mapping_data`: return the cache if populated;
otherwise parse the history file (`FileNotFoundError` yields the empty
mapping; a zero-byte file makes `json.loads("")` raise an uncaught
`JSONDecodeError`).  The returned dictionary *is* the cache object. -/
def load_mapping_data (st : HistoryState) : Except PyError (HistoryState × Mapping) :=
  match st.cache with
  | some m => .ok (st, m)
  | none =>
    match st.historyFile with
    | .absent => .ok ({ st with cache := some ([] : Mapping) }, ([] : Mapping))
    | .json m =>
      let loaded := serializeMapping m
      .ok ({ st with cache := some loaded }, loaded)
    | .empty => .error .jsonDecodeError

/-- The upsert
`if forwarder_name not in mapping_data: mapping_data[forwarder_name] = {}`
followed by `mapping_data[forwarder_name][tg_message_id] = value`. -/
def upsertMapping (m : Mapping) (fname : String) (k : JKey) (v : JVal) : Mapping :=
  let m1 : Mapping := if (alistGet m fname).isSome then m else alistPut m fname []
  alistPut m1 fname (alistPut ((alistGet m1 fname).getD []) k v)

/-- `MessageHistoryHandler.save_mapping_data` (`record_success`).  `writeOk`
is the environment's verdict on the durable write.  Because `mapping_data`
aliases `_mapping_data_cache`, the upsert is visible in the cache *before*
the write; on a write failure the exception is logged and the file is left
unchanged, but the cache keeps the new entry (the trailing
`self._mapping_data_cache = mapping_data` in the source rebinds the cache to
the object it already is). -/
def save_mapping_data (st : HistoryState) (forwarder_name : String)
    (tg_message_id discord_message_id : Int) (writeOk : Bool) :
    Except PyError HistoryState :=
  match load_mapping_data st with
  | .error e => .error e
  | .ok (st1, m) =>
    let m2 := upsertMapping m forwarder_name (.kInt tg_message_id) (.vInt discord_message_id)
    if writeOk then
      .ok { st1 with cache := some m2, historyFile := .json m2 }
    else
      .ok { st1 with cache := some m2 }

/-- `MessageHistoryHandler.save_missed_message` (`record_failure`).  The
source obtains `mapping_data` from `load_mapping_data` — the *primary*
mapping cache — inserts the `(discord_channel_id, exception)` tuple into it,
and dumps that whole dictionary to the missed-messages file; so the primary
cache is mutated and the primary mapping is what lands in the missed file. -/
def save_missed_message (st : HistoryState) (forwarder_name : String)
    (tg_message_id discord_channel_id : Int) (exc : String) (writeOk : Bool) :
    Except PyError HistoryState :=
  match load_mapping_data st with
  | .error e => .error e
  | .ok (st1, m) =>
    let m2 := upsertMapping m forwarder_name (.kInt tg_message_id) (.vPair discord_channel_id exc)
    if writeOk then
      .ok { st1 with cache := some m2, missedFile := .json m2 }
    else
      .ok { st1 with cache := some m2 }

/-- `MessageHistoryHandler.get_discord_message_id` (`get_destination_id`):
lazy-load, then two `dict.get` lookups, the inner one with the *integer*
`tg_message_id` key. -/
def get_discord_message_id (st : HistoryState) (forwarder_name : String)
    (tg_message_id : Int) : Except PyError (HistoryState × Option JVal) :=
  match load_mapping_data st with
  | .error e => .error e
  | .ok (st1, m) =>
    match alistGet m forwarder_name with
    | some inner => .ok (st1, alistGet inner (.kInt tg_message_id))
    | none => .ok (st1, none)

/-- The fold behind `max(forwarder_data, key=int)`: keep the first entry whose
key has the strictly greatest integer value (Python `max` returns the first
maximal element). -/
def lastPairAux : (JKey × JVal) → List (JKey × JVal) → (JKey × JVal)
  | best, [] => best
  | best, p :: rest => lastPairAux (if keyInt p.1 > keyInt best.1 then p else best) rest

/-- `max(forwarder_data, key=int)` paired with
`forwarder_data[last_tg_message_id]`; `none` on an empty dictionary (the
source skips those via `if not forwarder_data: continue`). -/
def lastPair : List (JKey × JVal) → Option (JKey × JVal)
  | [] => none
  | p :: rest => some (lastPairAux p rest)

/-- One element of the list built by
`MessageHistoryHandler.get_last_messages_for_all_forwarders`. -/
structure LastMessage where
  forwarder_name : String
  telegram_id : Int
  discord_id : JVal
deriving DecidableEq, Repr

/-- The loop of `get_last_messages_for_all_forwarders` over the loaded
mapping. -/
def lastMessages : Mapping → List LastMessage
  | [] => []
  | (n, inner) :: rest =>
    match lastPair inner with
    | none => lastMessages rest
    | some (k, v) => { forwarder_name := n, telegram_id := keyInt k, discord_id := v } :: lastMessages rest

/-- `MessageHistoryHandler.get_last_messages_for_all_forwarders`
(`last_message_per_forwarder`). -/
def get_last_messages_for_all_forwarders (st : HistoryState) :
    Except PyError (HistoryState × List LastMessage) :=
  match load_mapping_data st with
  | .error e => .error e
  | .ok (st1, m) => .ok (st1, lastMessages m)

/-- `st_size / (1024 * 1024) > config.app.history_size_limit`, with the float
arithmetic carried out exactly on rationals. -/
def overLimit (size : Nat) (limit : ℚ) : Bool :=
  (size : ℚ) / (1024 * 1024) > limit

/-- `MessageHistoryHandler.clean_history_data` (`rotate_if_oversized`).  The
`or` short-circuits: the missed file is only statted when the history file is
present and under the limit; a `FileNotFoundError` from either `os.stat` is
caught and logged, leaving everything unchanged.  Truncation
(`open(file, "w").close()`) empties both files and never touches
`_mapping_data_cache`. -/
def clean_history_data (st : HistoryState) (limit : ℚ) : HistoryState :=
  match h : st.historyFile with
  | .absent => st
  | hf =>
    if overLimit (fileSize st.historyFile) limit then
      { st with historyFile := .empty, missedFile := .empty }
    else
      match st.missedFile with
      | .absent => st
      | _ =>
        if overLimit (fileSize st.missedFile) limit then
          { st with historyFile := .empty, missedFile := .empty }
        else
          st

/-! ### Statement-side predicates

These definitions formalise the wording of the specification's claims (they
are compared against the behaviour of the embedded source functions above). -/

/-- Simulating a process restart: a fresh `MessageHistoryHandler` singleton
has `_mapping_data_cache = None`; the durable files survive. -/
def restart (st : HistoryState) : HistoryState :=
  { cache := none, historyFile := st.historyFile, missedFile := st.missedFile }

/-- The `(tg_channel_id, discord_channel_id)` combination of a forwarder whose
ids are present (claims about valid documents guarantee presence). -/
def chanPair (f : ForwarderDoc) : ChanId × ChanId :=
  (f.tg_channel_id.getD (.int 0), f.discord_channel_id.getD (.int 0))

/-- The claim's per-forwarder validity conditions: all required fields
present, integer channel ids, `forward_hashtags` non-empty unless
`forward_everything`, no `mention_everyone`/`override_mention_everyone`
conflict, and forward/excluded hashtag names disjoint (case-insensitive). -/
def ForwarderOK (f : ForwarderDoc) : Prop :=
  f.forwarder_name.isSome = true ∧
  (∃ n, f.tg_channel_id = some (.int n)) ∧
  (∃ n, f.discord_channel_id = some (.int n)) ∧
  (∃ b, f.mention_everyone = some b) ∧
  ((get_forward_hashtags f).length ≤ 0 → f.forward_everything = some true) ∧
  (f.mention_everyone = some true →
    (get_forward_hashtags f).any (fun t => t.override_mention_everyone.getD false) = false) ∧
  listInter ((get_forward_hashtags f).map (fun t => strLower t.name))
    ((get_excluded_hashtags f).map (fun t => strLower t.name)) = []

/-- Boolean rendering of `ForwarderOK`, for concrete documents. -/
def forwarderOKb (f : ForwarderDoc) : Bool :=
  f.forwarder_name.isSome &&
  (match f.tg_channel_id with | some (.int _) => true | _ => false) &&
  (match f.discord_channel_id with | some (.int _) => true | _ => false) &&
  f.mention_everyone.isSome &&
  decide ((get_forward_hashtags f).length ≤ 0 → f.forward_everything = some true) &&
  decide (f.mention_everyone = some true →
    (get_forward_hashtags f).any (fun t => t.override_mention_everyone.getD false) = false) &&
  decide (listInter ((get_forward_hashtags f).map (fun t => strLower t.name))
    ((get_excluded_hashtags f).map (fun t => strLower t.name)) = [])

/-- Two forwarders (given in document order) do not share a hashtag: whenever
they carry the same `tg_channel_id`, their (case-insensitive,
truthiness-filtered) `forward_hashtags` name sets are disjoint. -/
def SharedR (f g : ForwarderDoc) : Prop :=
  ∀ c, f.tg_channel_id = some c → g.tg_channel_id = some c →
    listInter (sharedNames f) (sharedNames g) = []

/-- Invariant I5 of the specification: across the whole forwarder list, any
two forwarders with the same `tg_channel_id` have disjoint (case-insensitive,
truthiness-filtered) `forward_hashtags` name sets. -/
def SharedDisjoint (fwds : List ForwarderDoc) : Prop :=
  List.Pairwise SharedR fwds

/-- The accumulated `forwarder_error_string` after appending one
`forwarder name:` tag per processed forwarder. -/
def fesAfter (fes0 : String) (names : List String) : String :=
  names.foldl (fun s n => s ++ " forwarder name: " ++ n) fes0

/-! ### Concrete documents and states used by counterexamples and witnesses -/

/-- An `openai` section with the feature disabled (its check passes without
reading any other key). -/
def oaiDisabled : OpenAIDoc :=
  { enabled := some false, api_key := none, organization := none,
    sentiment_analysis_prompt := none }

/-- A fully valid forwarder. -/
def fwdAlpha : ForwarderDoc :=
  { forwarder_name := some "Alpha", tg_channel_id := some (.int 1),
    discord_channel_id := some (.int 1), forward_everything := some true,
    forward_hashtags := none, excluded_hashtags := none,
    mention_everyone := some false }

/-- A forwarder duplicating `fwdAlpha`'s channel combination. -/
def fwdBeta : ForwarderDoc :=
  { forwarder_name := some "Beta", tg_channel_id := some (.int 1),
    discord_channel_id := some (.int 1), forward_everything := some true,
    forward_hashtags := none, excluded_hashtags := none,
    mention_everyone := some false }

/-- A document whose only rule violation is `fwdBeta`'s duplicate channel
combination. -/
def docC7 : ConfigDoc :=
  { application := some (), logger := some (), telegram := some (),
    discord := some (), openai := some oaiDisabled,
    telegram_forwarders := some [fwdAlpha, fwdBeta] }

/-- A document with a single valid forwarder. -/
def docOK : ConfigDoc :=
  { application := some (), logger := some (), telegram := some (),
    discord := some (), openai := some oaiDisabled,
    telegram_forwarders := some [fwdAlpha] }

/-- Forwarder `A`: channel pair `(1, 1)`, forwards hashtag `#x`. -/
def fwdC5a : ForwarderDoc :=
  { forwarder_name := some "A", tg_channel_id := some (.int 1),
    discord_channel_id := some (.int 1), forward_everything := some true,
    forward_hashtags := some [{ name := "x", override_mention_everyone := none }],
    excluded_hashtags := some [], mention_everyone := some false }

/-- Forwarder `B`: same `tg_channel_id` as `A`, different Discord channel,
forwards hashtag `#X` (case-insensitively equal to `A`'s `#x`). -/
def fwdC5b : ForwarderDoc :=
  { forwarder_name := some "B", tg_channel_id := some (.int 1),
    discord_channel_id := some (.int 2), forward_everything := some true,
    forward_hashtags := some [{ name := "X", override_mention_everyone := none }],
    excluded_hashtags := some [], mention_everyone := some false }

/-- A document meeting every per-forwarder condition and pair-uniqueness, but
violating the cross-forwarder shared-hashtag invariant. -/
def docC5 : ConfigDoc :=
  { application := some (), logger := some (), telegram := some (),
    discord := some (), openai := some oaiDisabled,
    telegram_forwarders := some [fwdC5a, fwdC5b] }

/-- A pair of forwarders on the same source channel with disjoint hashtag
sets. -/
def fwdD1 : ForwarderDoc :=
  { forwarder_name := some "D1", tg_channel_id := some (.int 7),
    discord_channel_id := some (.int 1), forward_everything := some false,
    forward_hashtags := some [{ name := "a", override_mention_everyone := none }],
    excluded_hashtags := none, mention_everyone := some false }

def fwdD2 : ForwarderDoc :=
  { forwarder_name := some "D2", tg_channel_id := some (.int 7),
    discord_channel_id := some (.int 2), forward_everything := some false,
    forward_hashtags := some [{ name := "b", override_mention_everyone := none }],
    excluded_hashtags := none, mention_everyone := some false }

/-- Base fields shared by the structurally incomplete documents below: all
five `required_keys` of `Config.load` are present. -/
def doc10Base : ConfigDoc :=
  { application := some (), logger := some (), telegram := some (),
    discord := some (), openai := some oaiDisabled,
    telegram_forwarders := some [] }

/-- Required keys present, `openai` absent. -/
def doc10a : ConfigDoc := { doc10Base with openai := none }

/-- A forwarder lacking `forwarder_name`. -/
def fwd10b : ForwarderDoc :=
  { forwarder_name := none, tg_channel_id := some (.int 1),
    discord_channel_id := some (.int 1), forward_everything := some true,
    forward_hashtags := none, excluded_hashtags := none,
    mention_everyone := some false }

/-- A document with one forwarder lacking `forwarder_name`. -/
def doc10b : ConfigDoc := { doc10Base with telegram_forwarders := some [fwd10b] }

/-- A forwarder lacking `tg_channel_id` (non-empty `forward_hashtags`, so the
short-circuited `forward_everything` read is skipped). -/
def fwd10c : ForwarderDoc :=
  { forwarder_name := some "F", tg_channel_id := none,
    discord_channel_id := some (.int 1), forward_everything := none,
    forward_hashtags := some [{ name := "t", override_mention_everyone := none }],
    excluded_hashtags := none, mention_everyone := some false }

/-- A document with one forwarder lacking `tg_channel_id`. -/
def doc10c : ConfigDoc := { doc10Base with telegram_forwarders := some [fwd10c] }

/-- A forwarder lacking `discord_channel_id`. -/
def fwd10d : ForwarderDoc :=
  { forwarder_name := some "F", tg_channel_id := some (.int 1),
    discord_channel_id := none, forward_everything := none,
    forward_hashtags := some [{ name := "t", override_mention_everyone := none }],
    excluded_hashtags := none, mention_everyone := some false }

/-- A document with one forwarder lacking `discord_channel_id`. -/
def doc10d : ConfigDoc := { doc10Base with telegram_forwarders := some [fwd10d] }

/-- A forwarder with empty `forward_hashtags` lacking `forward_everything`. -/
def fwd10e : ForwarderDoc :=
  { forwarder_name := some "F", tg_channel_id := some (.int 1),
    discord_channel_id := some (.int 1), forward_everything := none,
    forward_hashtags := none, excluded_hashtags := none,
    mention_everyone := some false }

/-- A document with one forwarder lacking `forward_everything`. -/
def doc10e : ConfigDoc := { doc10Base with telegram_forwarders := some [fwd10e] }

/-- A forwarder lacking `mention_everyone`. -/
def fwd10f : ForwarderDoc :=
  { forwarder_name := some "F", tg_channel_id := some (.int 1),
    discord_channel_id := some (.int 2), forward_everything := some true,
    forward_hashtags := some [{ name := "t", override_mention_everyone := none }],
    excluded_hashtags := none, mention_everyone := none }

/-- A document with one forwarder lacking `mention_everyone`. -/
def doc10f : ConfigDoc := { doc10Base with telegram_forwarders := some [fwd10f] }

/-- A fresh process with no durable files yet. -/
def hs0 : HistoryState := { cache := none, historyFile := .absent, missedFile := .absent }

/-- The mapping after `record_success("f1", 100, 200)`. -/
def m1 : Mapping := [("f1", [(.kInt 100, .vInt 200)])]

/-- The state after `record_success("f1", 100, 200)` from `hs0`. -/
def hs1 : HistoryState := { cache := some m1, historyFile := .json m1, missedFile := .absent }

/-- `m1` as reloaded from disk: the integer key came back as a string. -/
def m1s : Mapping := [("f1", [(.kStr "100", .vInt 200)])]

/-- The post-restart state after the reloading `get` populated the cache. -/
def hs1r : HistoryState := { cache := some m1s, historyFile := .json m1, missedFile := .absent }

/-- A state whose cache has been lazily loaded from a missing file: the empty
mapping. -/
def hsE : HistoryState := { cache := some [], historyFile := .absent, missedFile := .absent }

/-- The primary cache after `save_missed_message("f1", 100, 999, "boom")` ran
on `hs1`: the success entry has been overwritten by the missed tuple. -/
def m2 : Mapping := [("f1", [(.kInt 100, .vPair 999 "boom")])]

/-- The full state after that `save_missed_message`. -/
def hs2 : HistoryState := { cache := some m2, historyFile := .json m1, missedFile := .json m2 }

/-- `hs1` after `clean_history_data` truncated both files: the cache
survives. -/
def hs1Clean : HistoryState := { cache := some m1, historyFile := .empty, missedFile := .empty }

/-- A cache recording source ids 5, 42 and 7 for forwarder `f1`, as string
keys (the shape produced by a reload): the lexicographic maximum key is `"7"`,
the numeric maximum is `42`. -/
def mW : Mapping := [("f1", [(.kStr "5", .vInt 50), (.kStr "42", .vInt 420), (.kStr "7", .vInt 70)])]

/-- A loaded state holding `mW`. -/
def stW : HistoryState := { cache := some mW, historyFile := .absent, missedFile := .absent }

deriving instance DecidableEq for Except

/-- The value a `get_discord_message_id` read extracts from a loaded mapping
(the two chained `dict.get` calls). -/
def innerLookup (c : Mapping) (fname : String) (t : Int) : Option JVal :=
  match alistGet c fname with
  | some inner => alistGet inner (.kInt t)
  | none => none

/-! ## Theorems -/

/-- `load_mapping_data` never touches the durable files. -/
theorem load_preserves_files (st st1 : HistoryState) (m : Mapping)
    (h : load_mapping_data st = .ok (st1, m)) :
    st1.historyFile = st.historyFile ∧ st1.missedFile = st.missedFile := by
  obtain ⟨cache, hf, mf⟩ := st
  cases cache with
  | some c =>
    simp only [load_mapping_data, Except.ok.injEq, Prod.mk.injEq] at h
    obtain ⟨h1, -⟩ := h
    subst h1
    exact ⟨rfl, rfl⟩
  | none =>
    cases hf
    all_goals simp only [load_mapping_data, Except.ok.injEq, Prod.mk.injEq] at h
    all_goals obtain ⟨h1, -⟩ := h
    all_goals subst h1
    all_goals exact ⟨rfl, rfl⟩

/-- A `get_discord_message_id` on a state whose cache is populated returns the
same state and the two-level lookup in the cache. -/
theorem get_loaded (st : HistoryState) (c : Mapping) (hc : st.cache = some c)
    (fname : String) (t : Int) :
    get_discord_message_id st fname t = .ok (st, innerLookup c fname t) := by
  unfold get_discord_message_id load_mapping_data innerLookup
  rw [hc]
  simp only
  split <;> rfl

/-- `clean_history_data` never touches the in-memory cache. -/
theorem clean_cache_eq (st : HistoryState) (limit : ℚ) :
    (clean_history_data st limit).cache = st.cache := by
  unfold clean_history_data
  repeat' split
  all_goals rfl

/-- `clean_history_data` with the history file present and over the limit
empties both files. -/
theorem clean_hist_over (st : HistoryState) (limit : ℚ)
    (h1 : st.historyFile ≠ .absent)
    (h2 : overLimit (fileSize st.historyFile) limit = true) :
    clean_history_data st limit = { st with historyFile := .empty, missedFile := .empty } := by
  unfold clean_history_data
  split
  · rename_i heq
    exact absurd heq h1
  · rw [h2]
    simp

/-- `clean_history_data` with the history file under the limit but the missed
file present and over the limit also empties both files. -/
theorem clean_missed_over (st : HistoryState) (limit : ℚ)
    (h1 : st.historyFile ≠ .absent)
    (h2 : overLimit (fileSize st.historyFile) limit = false)
    (h3 : st.missedFile ≠ .absent)
    (h4 : overLimit (fileSize st.missedFile) limit = true) :
    clean_history_data st limit = { st with historyFile := .empty, missedFile := .empty } := by
  obtain ⟨cache, hf, mf⟩ := st
  dsimp only at h1 h2 h3 h4 ⊢
  cases hf <;> cases mf <;> simp_all [clean_history_data]

/-- Claim C1: the claimed round trip fails in the code.  Recording
`(f1, 100, 200)` persists the mapping, but the JSON write stringifies the
integer key; after a simulated restart the reloaded mapping holds the string
key `"100"` (so it is not identical to the pre-persistence mapping), and
`get_discord_message_id("f1", 100)` — an integer lookup — returns `None`
instead of `200`. -/
theorem history_roundtrip_not_identity :
    save_mapping_data hs0 "f1" 100 200 true = .ok hs1 ∧
    get_discord_message_id hs1 "f1" 100 = .ok (hs1, some (.vInt 200)) ∧
    load_mapping_data (restart hs1) = .ok (hs1r, m1s) ∧
    m1s ≠ m1 ∧
    get_discord_message_id (restart hs1) "f1" 100 = .ok (hs1r, none) :=
  ⟨rfl, rfl, rfl, by decide, rfl⟩

/-- Claim C2 (counterexample): on a durable-write failure,
`save_mapping_data` does *not* leave the in-memory cache unchanged — the
loaded mapping aliases the cache, so the new entry is in the cache even
though nothing was written. -/
theorem record_success_failed_write_mutates_cache :
    save_mapping_data hsE "f1" 100 200 false =
      .ok { cache := some m1, historyFile := .absent, missedFile := .absent } ∧
    some m1 ≠ hsE.cache :=
  ⟨rfl, by decide⟩

/-- Claim C2 (amended): `save_mapping_data` upserts the entry into the cache
unconditionally (before the write); on write failure the durable files are
left unchanged and the error is only logged, while on success the history
file receives exactly the serialized new mapping. -/
theorem record_success_update_semantics (st st1 : HistoryState) (m : Mapping)
    (fname : String) (t d : Int)
    (h : load_mapping_data st = .ok (st1, m)) :
    save_mapping_data st fname t d false =
      .ok { st1 with cache := some (upsertMapping m fname (.kInt t) (.vInt d)) } ∧
    save_mapping_data st fname t d true =
      .ok { cache := some (upsertMapping m fname (.kInt t) (.vInt d)),
            historyFile := .json (upsertMapping m fname (.kInt t) (.vInt d)),
            missedFile := st1.missedFile } ∧
    st1.historyFile = st.historyFile ∧ st1.missedFile = st.missedFile := by
  have hf := load_preserves_files st st1 m h
  refine ⟨?_, ?_, hf.1, hf.2⟩ <;> simp [save_mapping_data, h]

/-- Witness for the amended C2 theorem at a concrete loaded state. -/
theorem record_success_update_semantics_witness :
    save_mapping_data hsE "f2" 5 6 false =
      .ok { hsE with cache := some (upsertMapping [] "f2" (.kInt 5) (.vInt 6)) } ∧
    save_mapping_data hsE "f2" 5 6 true =
      .ok { cache := some (upsertMapping [] "f2" (.kInt 5) (.vInt 6)),
            historyFile := .json (upsertMapping [] "f2" (.kInt 5) (.vInt 6)),
            missedFile := hsE.missedFile } ∧
    hsE.historyFile = hsE.historyFile ∧ hsE.missedFile = hsE.missedFile :=
  record_success_update_semantics hsE hsE [] "f2" 5 6 rfl

/-- Claim C3: `save_missed_message` corrupts the primary history mapping.
After a success record for `(f1, 100)`, recording a failure for the same key
overwrites the primary cache entry with the `(channel, error)` tuple (so a
subsequent `get_discord_message_id` no longer returns `200`), and the whole
primary mapping is what gets written to the missed-messages file. -/
theorem record_failure_corrupts_primary :
    save_mapping_data hs0 "f1" 100 200 true = .ok hs1 ∧
    save_missed_message hs1 "f1" 100 999 "boom" true = .ok hs2 ∧
    hs2.cache = some m2 ∧
    m2 ≠ m1 ∧
    hs2.missedFile = .json m2 ∧
    get_discord_message_id hs2 "f1" 100 = .ok (hs2, some (.vPair 999 "boom")) ∧
    some (JVal.vPair 999 "boom") ≠ some (JVal.vInt 200) :=
  ⟨rfl, rfl, rfl, by decide, rfl, rfl, by decide⟩

/-- Claim C4 (counterexample): with the history file over the size limit,
`clean_history_data` empties both files, yet a subsequent
`get_discord_message_id` for the previously recorded `(f1, 100)` still
returns `200` from the untouched in-memory cache — not "not found". -/
theorem rotation_leaves_cache_serving :
    overLimit (fileSize hs1.historyFile) 0 = true ∧
    clean_history_data hs1 0 = hs1Clean ∧
    hs1Clean.historyFile = .empty ∧ hs1Clean.missedFile = .empty ∧
    get_discord_message_id hs1Clean "f1" 100 = .ok (hs1Clean, some (.vInt 200)) ∧
    some (JVal.vInt 200) ≠ (none : Option JVal) := by
  have hov : overLimit (fileSize hs1.historyFile) 0 = true := by
    rw [show fileSize hs1.historyFile = 40 from rfl]
    simp only [overLimit, gt_iff_lt, decide_eq_true_eq]
    norm_num
  refine ⟨hov, ?_, rfl, rfl, rfl, by decide⟩
  rw [clean_hist_over hs1 0 (by decide) hov]
  rfl

/-- Claim C4 (amended): when either durable file is over the threshold,
`clean_history_data` empties both files but never clears the in-memory
cache, so reads in the same process still return the previously recorded
entries. -/
theorem rotation_empties_files_cache_persists (st : HistoryState) (limit : ℚ) :
    (st.historyFile ≠ .absent → overLimit (fileSize st.historyFile) limit = true →
      clean_history_data st limit = { st with historyFile := .empty, missedFile := .empty }) ∧
    (st.historyFile ≠ .absent → overLimit (fileSize st.historyFile) limit = false →
      st.missedFile ≠ .absent → overLimit (fileSize st.missedFile) limit = true →
      clean_history_data st limit = { st with historyFile := .empty, missedFile := .empty }) ∧
    (clean_history_data st limit).cache = st.cache ∧
    (∀ c, st.cache = some c → ∀ fname t st2 v,
      get_discord_message_id st fname t = .ok (st2, v) →
      get_discord_message_id (clean_history_data st limit) fname t =
        .ok (clean_history_data st limit, v)) := by
  refine ⟨clean_hist_over st limit, clean_missed_over st limit, clean_cache_eq st limit, ?_⟩
  intro c hc fname t st2 v hget
  rw [get_loaded st c hc fname t] at hget
  simp only [Except.ok.injEq, Prod.mk.injEq] at hget
  rw [get_loaded (clean_history_data st limit) c (by rw [clean_cache_eq st limit]; exact hc) fname t,
    hget.2]

/-- Witness for the amended C4 theorem at a concrete over-limit state. -/
theorem rotation_empties_files_cache_persists_witness :
    (hs1.historyFile ≠ .absent → overLimit (fileSize hs1.historyFile) 0 = true →
      clean_history_data hs1 0 = { hs1 with historyFile := .empty, missedFile := .empty }) ∧
    (hs1.historyFile ≠ .absent → overLimit (fileSize hs1.historyFile) 0 = false →
      hs1.missedFile ≠ .absent → overLimit (fileSize hs1.missedFile) 0 = true →
      clean_history_data hs1 0 = { hs1 with historyFile := .empty, missedFile := .empty }) ∧
    (clean_history_data hs1 0).cache = hs1.cache ∧
    (∀ c, hs1.cache = some c → ∀ fname t st2 v,
      get_discord_message_id hs1 fname t = .ok (st2, v) →
      get_discord_message_id (clean_history_data hs1 0) fname t =
        .ok (clean_history_data hs1 0, v)) :=
  rotation_empties_files_cache_persists hs1 0

/-- Claim C9: whenever `validate_config` returns normally, the returned flag
is `true` exactly when the returned error list is empty (the final
`valid = not errors` makes the pair consistent regardless of the
intermediate overwrites of `valid`). -/
theorem valid_iff_errors_empty (doc : ConfigDoc) (v : Bool) (errs : List String)
    (h : validate_config doc = .ok (v, errs)) : v = true ↔ errs = [] := by
  have key : ∀ (l : List String), l.isEmpty = true ↔ l = [] := by
    intro l
    cases l <;> simp
  unfold validate_config at h
  cases hA : pyLookup doc.telegram_forwarders "telegram_forwarders" with
  | error e => rw [hA] at h; cases h
  | ok forwarders =>
  rw [hA] at h
  simp only at h
  cases hB : pyLookup doc.openai "openai" with
  | error e => rw [hB] at h; simp only at h; cases h
  | ok oai =>
  rw [hB] at h
  simp only at h
  cases hC : validate_openai_enabled oai with
  | error e => rw [hC] at h; simp only at h; cases h
  | ok p =>
  obtain ⟨v1, e1⟩ := p
  rw [hC] at h
  simp only at h
  cases hD : forwarderLoop forwarders "Invalid forwarder configuration:"
      (if v1 = true then [] else [e1]) [] with
  | error e => rw [hD] at h; simp only at h; cases h
  | ok q =>
  obtain ⟨fes1, errors1, combos1⟩ := q
  rw [hD] at h
  simp only at h
  cases hE : validate_shared_hashtags forwarders with
  | error e => rw [hE] at h; simp only at h; cases h
  | ok r =>
  obtain ⟨v2, e2⟩ := r
  rw [hE] at h
  simp only [Except.ok.injEq, Prod.mk.injEq] at h
  obtain ⟨h1, h2⟩ := h
  subst h1
  subst h2
  exact key _

/-- Witness for C9 at a concrete valid document. -/
theorem valid_iff_errors_empty_witness : true = true ↔ ([] : List String) = [] :=
  valid_iff_errors_empty docOK true [] rfl

/-- Claim C10: `validate_config` raises `KeyError` on documents that pass the
`required_keys` check of `Config.load`: with `openai` absent, and with a
forwarder lacking `forwarder_name`, `tg_channel_id`, `discord_channel_id`,
`forward_everything` (with empty `forward_hashtags`) or `mention_everyone`. -/
theorem validate_config_keyerror_incomplete :
    (requiredKeysPresent doc10a = true ∧ validate_config doc10a = .error (.keyError "openai")) ∧
    (requiredKeysPresent doc10b = true ∧ validate_config doc10b = .error (.keyError "forwarder_name")) ∧
    (requiredKeysPresent doc10c = true ∧ validate_config doc10c = .error (.keyError "tg_channel_id")) ∧
    (requiredKeysPresent doc10d = true ∧ validate_config doc10d = .error (.keyError "discord_channel_id")) ∧
    (requiredKeysPresent doc10e = true ∧ validate_config doc10e = .error (.keyError "forward_everything")) ∧
    (requiredKeysPresent doc10f = true ∧ validate_config doc10f = .error (.keyError "mention_everyone")) :=
  ⟨⟨rfl, rfl⟩, ⟨rfl, rfl⟩, ⟨rfl, rfl⟩, ⟨rfl, rfl⟩, ⟨rfl, rfl⟩, ⟨rfl, rfl⟩⟩

/-- The running maximum of `max(_, key=int)` dominates its seed. -/
theorem lastPairAux_ge_best (rest : List (JKey × JVal)) (best : JKey × JVal) :
    keyInt best.1 ≤ keyInt (lastPairAux best rest).1 := by
  induction rest generalizing best with
  | nil => exact le_refl _
  | cons p rest ih =>
    simp only [lastPairAux]
    split
    · rename_i hgt
      exact le_trans (le_of_lt hgt) (ih p)
    · exact ih best

/-- The running maximum of `max(_, key=int)` dominates every scanned entry. -/
theorem lastPairAux_ge_mem (rest : List (JKey × JVal)) (best : JKey × JVal) :
    ∀ q ∈ rest, keyInt q.1 ≤ keyInt (lastPairAux best rest).1 := by
  induction rest generalizing best with
  | nil => intro q hq; cases hq
  | cons p rest ih =>
    intro q hq
    simp only [lastPairAux]
    rcases List.mem_cons.mp hq with h | h
    · subst h
      split
      · exact lastPairAux_ge_best rest q
      · rename_i hng
        exact le_trans (not_lt.mp hng) (lastPairAux_ge_best rest best)
    · split <;> exact ih _ q h

/-- The running maximum is the seed or one of the scanned entries. -/
theorem lastPairAux_mem (rest : List (JKey × JVal)) (best : JKey × JVal) :
    lastPairAux best rest = best ∨ lastPairAux best rest ∈ rest := by
  induction rest generalizing best with
  | nil => exact Or.inl rfl
  | cons p rest ih =>
    simp only [lastPairAux]
    split
    · rcases ih p with h | h
      · right
        rw [h]
        exact List.mem_cons_self _ _
      · right
        exact List.mem_cons_of_mem _ h
    · rcases ih best with h | h
      · exact Or.inl h
      · right
        exact List.mem_cons_of_mem _ h

/-- `max(forwarder_data, key=int)` returns an entry of the dictionary whose
integer key value dominates every entry. -/
theorem lastPair_spec (inner : List (JKey × JVal)) (k : JKey) (v : JVal)
    (h : lastPair inner = some (k, v)) :
    (k, v) ∈ inner ∧ ∀ q ∈ inner, keyInt q.1 ≤ keyInt k := by
  cases inner with
  | nil => cases h
  | cons p rest =>
    simp only [lastPair, Option.some.injEq] at h
    constructor
    · rcases lastPairAux_mem rest p with h2 | h2
      · rw [h] at h2
        rw [h2]
        exact List.mem_cons_self _ _
      · rw [h] at h2
        exact List.mem_cons_of_mem _ h2
    · intro q hq
      have hk : keyInt (lastPairAux p rest).1 = keyInt k := by rw [h]
      rcases List.mem_cons.mp hq with h3 | h3
      · subst h3
        exact hk ▸ lastPairAux_ge_best rest q
      · exact hk ▸ lastPairAux_ge_mem rest p q h3

/-- Every non-empty forwarder dictionary contributes its maximal entry to the
result of `get_last_messages_for_all_forwarders`. -/
theorem lastMessages_complete (m : Mapping) :
    ∀ n inner, (n, inner) ∈ m → inner ≠ [] →
      ∃ k v, lastPair inner = some (k, v) ∧
        ({ forwarder_name := n, telegram_id := keyInt k, discord_id := v } : LastMessage)
          ∈ lastMessages m := by
  induction m with
  | nil => intro n inner h; cases h
  | cons p rest ih =>
    obtain ⟨pn, pinner⟩ := p
    intro n inner hmem hne
    rcases List.mem_cons.mp hmem with h | h
    · obtain ⟨h1, h2⟩ := Prod.mk.injEq .. ▸ h
      subst h1
      subst h2
      cases hin : inner with
      | nil => exact absurd hin hne
      | cons q qs =>
        refine ⟨(lastPairAux q qs).1, (lastPairAux q qs).2, ?_, ?_⟩
        · simp [lastPair]
        · simp only [lastMessages, lastPair]
          exact List.mem_cons_self _ _
    · obtain ⟨k, v, hlp, hmem2⟩ := ih n inner h hne
      refine ⟨k, v, hlp, ?_⟩
      simp only [lastMessages]
      cases hp : lastPair pinner with
      | none => exact hmem2
      | some q =>
        obtain ⟨qk, qv⟩ := q
        exact List.mem_cons_of_mem _ hmem2

/-- Every result entry of `get_last_messages_for_all_forwarders` comes from a
forwarder with a non-empty dictionary. -/
theorem lastMessages_sound (m : Mapping) :
    ∀ lm ∈ lastMessages m, ∃ inner, (lm.forwarder_name, inner) ∈ m ∧ inner ≠ [] := by
  induction m with
  | nil => intro lm hm; cases hm
  | cons p rest ih =>
    obtain ⟨pn, pinner⟩ := p
    intro lm hm
    simp only [lastMessages] at hm
    cases hp : lastPair pinner with
    | none =>
      rw [hp] at hm
      obtain ⟨inner, h1, h2⟩ := ih lm hm
      exact ⟨inner, List.mem_cons_of_mem _ h1, h2⟩
    | some q =>
      obtain ⟨qk, qv⟩ := q
      rw [hp] at hm
      rcases List.mem_cons.mp hm with h | h
      · have hne : pinner ≠ [] := by
          intro hnil
          rw [hnil] at hp
          cases hp
        refine ⟨pinner, ?_, hne⟩
        rw [h]
        exact List.mem_cons_self _ _
      · obtain ⟨inner, h1, h2⟩ := ih lm h
        exact ⟨inner, List.mem_cons_of_mem _ h1, h2⟩

/-- Claim C8: `get_last_messages_for_all_forwarders` returns, for every
forwarder with at least one entry, an entry of its dictionary whose integer
key value (string keys are converted with `int`) dominates every entry of
that dictionary; forwarders with empty dictionaries are omitted. -/
theorem last_message_per_forwarder_max (st st1 : HistoryState) (m : Mapping)
    (h : load_mapping_data st = .ok (st1, m)) :
    get_last_messages_for_all_forwarders st = .ok (st1, lastMessages m) ∧
    (∀ n inner, (n, inner) ∈ m → inner ≠ [] →
      ∃ k v, (k, v) ∈ inner ∧ (∀ q ∈ inner, keyInt q.1 ≤ keyInt k) ∧
        ({ forwarder_name := n, telegram_id := keyInt k, discord_id := v } : LastMessage)
          ∈ lastMessages m) ∧
    (∀ lm ∈ lastMessages m, ∃ inner, (lm.forwarder_name, inner) ∈ m ∧ inner ≠ []) := by
  refine ⟨?_, ?_, fun lm hm => lastMessages_sound m lm hm⟩
  · unfold get_last_messages_for_all_forwarders
    rw [h]
  · intro n inner hmem hne
    obtain ⟨k, v, hlp, hin⟩ := lastMessages_complete m n inner hmem hne
    obtain ⟨hkv, hmax⟩ := lastPair_spec inner k v hlp
    exact ⟨k, v, hkv, hmax, hin⟩

/-- Witness for C8: after recording source ids 5, 42 and 7 for `f1` (stored
as string keys, as after a reload), the returned entry is the one for 42 —
the numeric maximum, not the lexicographic maximum `"7"`. -/
theorem last_message_per_forwarder_max_witness :
    get_last_messages_for_all_forwarders stW =
      .ok (stW, [{ forwarder_name := "f1", telegram_id := 42, discord_id := .vInt 420 }]) ∧
    lastMessages mW = [{ forwarder_name := "f1", telegram_id := 42, discord_id := .vInt 420 }] :=
  ⟨(last_message_per_forwarder_max stW stW mW rfl).1, rfl⟩

/-- Looking up the freshly inserted key. -/
theorem alistGet_put_self {α β : Type} [DecidableEq α] (l : List (α × β)) (k : α) (v : β) :
    alistGet (alistPut l k v) k = some v := by
  induction l with
  | nil => simp [alistPut, alistGet]
  | cons p rest ih =>
    obtain ⟨pk, pv⟩ := p
    simp only [alistPut]
    split
    · simp [alistGet]
    · rename_i hne
      simp only [alistGet]
      rw [if_neg hne]
      exact ih

/-- Inserting one key leaves the other lookups unchanged. -/
theorem alistGet_put_ne {α β : Type} [DecidableEq α] (l : List (α × β)) (k k' : α) (v : β)
    (hne : k' ≠ k) : alistGet (alistPut l k v) k' = alistGet l k' := by
  induction l with
  | nil => simp [alistPut, alistGet, Ne.symm hne]
  | cons p rest ih =>
    obtain ⟨pk, pv⟩ := p
    simp only [alistPut]
    split
    · rename_i heq
      subst heq
      simp [alistGet, Ne.symm hne]
    · by_cases hpk : pk = k'
      · simp [alistGet, hpk]
      · simp [alistGet, hpk, ih]

/-- If the shared-hashtags loop finishes with `(True, "")`, every processed
forwarder's name set is disjoint from every set already recorded for its
channel in the incoming grouping dictionary. -/
theorem sharedLoop_inv (l : List ForwarderDoc) :
    ∀ (groups : List (ChanId × List (List String))) (e : String),
      validate_shared_hashtags_loop l groups = .ok (true, e) →
      ∀ f ∈ l, ∀ c, f.tg_channel_id = some c →
        ∀ s ∈ (alistGet groups c).getD [], listInter s (sharedNames f) = [] := by
  induction l with
  | nil => intro groups e h f hf; cases hf
  | cons f0 rest ih =>
    intro groups e h f hf c hc s hs
    unfold validate_shared_hashtags_loop at h
    cases htg : pyLookup f0.tg_channel_id "tg_channel_id" with
    | error e2 => rw [htg] at h; simp only at h; cases h
    | ok tg =>
    rw [htg] at h
    simp only at h
    have htg2 : f0.tg_channel_id = some tg := by
      cases hv : f0.tg_channel_id <;> rw [hv] at htg <;> simp [pyLookup] at htg
      rw [htg]
    by_cases hemp : (sharedNames f0).isEmpty = true
    · rw [if_pos hemp] at h
      rcases List.mem_cons.mp hf with hh | hh
      · subst hh
        have : sharedNames f = [] := by
          cases hv : sharedNames f
          · rfl
          · rw [hv] at hemp; cases hemp
        rw [this]
        simp [listInter]
      · exact ih groups e h f hh c hc s hs
    · rw [if_neg hemp] at h
      cases hg : alistGet groups tg with
      | none =>
        rw [hg] at h
        rcases List.mem_cons.mp hf with hh | hh
        · subst hh
          rw [hc] at htg2
          obtain rfl : tg = c := by cases htg2; rfl
          rw [hg] at hs
          cases hs
        · by_cases hctg : c = tg
          · subst hctg
            rw [hg] at hs
            cases hs
          · have := ih _ e h f hh c hc s
            rw [alistGet_put_ne groups tg c [sharedNames f0] hctg] at this
            exact this hs
      | some existing =>
        rw [hg] at h
        simp only at h
        cases hfind : existing.find? (fun s2 => !(listInter s2 (sharedNames f0)).isEmpty) with
        | some s2 =>
          rw [hfind] at h
          simp at h
        | none =>
          rw [hfind] at h
          rcases List.mem_cons.mp hf with hh | hh
          · subst hh
            rw [hc] at htg2
            obtain rfl : tg = c := by cases htg2; rfl
            rw [hg] at hs
            simp only [Option.getD_some] at hs
            have := List.find?_eq_none.mp hfind s hs
            simp only [Bool.not_eq_true', Bool.not_eq_false] at this
            cases hv : listInter s (sharedNames f)
            · rfl
            · rw [hv] at this; simp at this
          · by_cases hctg : c = tg
            · subst hctg
              have := ih _ e h f hh c hc s
              rw [alistGet_put_self groups c (existing ++ [sharedNames f0])] at this
              apply this
              simp only [Option.getD_some]
              rw [hg] at hs
              simp only [Option.getD_some] at hs
              exact List.mem_append_left _ hs
            · have := ih _ e h f hh c hc s
              rw [alistGet_put_ne groups tg c (existing ++ [sharedNames f0]) hctg] at this
              exact this hs

/-- If the shared-hashtags loop finishes with `(True, _)`, the processed
forwarders satisfy invariant I5 pairwise. -/
theorem sharedLoop_pairwise (l : List ForwarderDoc) :
    ∀ (groups : List (ChanId × List (List String))) (e : String),
      validate_shared_hashtags_loop l groups = .ok (true, e) →
      List.Pairwise SharedR l := by
  induction l with
  | nil => intro groups e h; exact List.Pairwise.nil
  | cons f0 rest ih =>
    intro groups e h
    unfold validate_shared_hashtags_loop at h
    cases htg : pyLookup f0.tg_channel_id "tg_channel_id" with
    | error e2 => rw [htg] at h; simp only at h; cases h
    | ok tg =>
    rw [htg] at h
    simp only at h
    have htg2 : f0.tg_channel_id = some tg := by
      cases hv : f0.tg_channel_id <;> rw [hv] at htg <;> simp [pyLookup] at htg
      rw [htg]
    by_cases hemp : (sharedNames f0).isEmpty = true
    · rw [if_pos hemp] at h
      refine List.Pairwise.cons ?_ (ih groups e h)
      intro g hg c hc0 hcg
      have : sharedNames f0 = [] := by
        cases hv : sharedNames f0
        · rfl
        · rw [hv] at hemp; cases hemp
      rw [this]
      rfl
    · rw [if_neg hemp] at h
      cases hg : alistGet groups tg with
      | none =>
        rw [hg] at h
        refine List.Pairwise.cons ?_ (ih _ e h)
        intro g hgm c hc0 hcg
        rw [htg2] at hc0
        obtain rfl : tg = c := by cases hc0; rfl
        have := sharedLoop_inv rest _ e h g hgm tg hcg (sharedNames f0)
        rw [alistGet_put_self groups tg [sharedNames f0]] at this
        exact this (by simp)
      | some existing =>
        rw [hg] at h
        simp only at h
        cases hfind : existing.find? (fun s2 => !(listInter s2 (sharedNames f0)).isEmpty) with
        | some s2 =>
          rw [hfind] at h
          simp at h
        | none =>
          rw [hfind] at h
          refine List.Pairwise.cons ?_ (ih _ e h)
          intro g hgm c hc0 hcg
          rw [htg2] at hc0
          obtain rfl : tg = c := by cases hc0; rfl
          have := sharedLoop_inv rest _ e h g hgm tg hcg (sharedNames f0)
          rw [alistGet_put_self groups tg (existing ++ [sharedNames f0])] at this
          exact this (by simp)

/-- If all the channel ids are present and the name sets are pairwise
disjoint per channel (with an invariant over the incoming grouping
dictionary), the shared-hashtags loop succeeds. -/
theorem sharedLoop_disjoint_ok (l : List ForwarderDoc) :
    ∀ (groups : List (ChanId × List (List String))),
      (∀ f ∈ l, (f.tg_channel_id).isSome = true) →
      List.Pairwise SharedR l →
      (∀ f ∈ l, ∀ c, f.tg_channel_id = some c →
        ∀ s ∈ (alistGet groups c).getD [], listInter s (sharedNames f) = []) →
      validate_shared_hashtags_loop l groups = .ok (true, "") := by
  induction l with
  | nil => intro groups _ _ _; rfl
  | cons f0 rest ih =>
    intro groups hsome hpw hinv
    obtain ⟨tg, htg2⟩ := Option.isSome_iff_exists.mp (hsome f0 (List.mem_cons_self ..))
    obtain ⟨hR, hpw2⟩ := List.pairwise_cons.mp hpw
    unfold validate_shared_hashtags_loop
    rw [show pyLookup f0.tg_channel_id "tg_channel_id" = .ok tg from by simp [pyLookup, htg2]]
    simp only
    by_cases hemp : (sharedNames f0).isEmpty = true
    · rw [if_pos hemp]
      exact ih groups (fun f hf => hsome f (List.mem_cons_of_mem _ hf)) hpw2
        (fun f hf => hinv f (List.mem_cons_of_mem _ hf))
    · rw [if_neg hemp]
      cases hg : alistGet groups tg with
      | none =>
        refine ih _ (fun f hf => hsome f (List.mem_cons_of_mem _ hf)) hpw2 ?_
        intro g hgm c hc s hs
        by_cases hctg : c = tg
        · subst hctg
          rw [alistGet_put_self groups c [sharedNames f0]] at hs
          simp only [Option.getD_some, List.mem_singleton] at hs
          subst hs
          exact hR g hgm c htg2 hc
        · rw [alistGet_put_ne groups tg c [sharedNames f0] hctg] at hs
          exact hinv g (List.mem_cons_of_mem _ hgm) c hc s hs
      | some existing =>
        simp only
        have hfind : existing.find? (fun s2 => !(listInter s2 (sharedNames f0)).isEmpty) = none := by
          rw [List.find?_eq_none]
          intro x hx
          have := hinv f0 (List.mem_cons_self ..) tg htg2 x (by rw [hg]; exact hx)
          simp [this]
        rw [hfind]
        refine ih _ (fun f hf => hsome f (List.mem_cons_of_mem _ hf)) hpw2 ?_
        intro g hgm c hc s hs
        by_cases hctg : c = tg
        · subst hctg
          rw [alistGet_put_self groups c (existing ++ [sharedNames f0])] at hs
          simp only [Option.getD_some] at hs
          rcases List.mem_append.mp hs with hss | hss
          · exact hinv g (List.mem_cons_of_mem _ hgm) c hc s (by rw [hg]; exact hss)
          · rw [List.mem_singleton.mp hss]
            exact hR g hgm c htg2 hc
        · rw [alistGet_put_ne groups tg c (existing ++ [sharedNames f0]) hctg] at hs
          exact hinv g (List.mem_cons_of_mem _ hgm) c hc s hs

/-- Claim C6: (1) whenever `validate_config` returns normally on a document in
whose forwarder list an earlier forwarder `f` and a later forwarder `g` carry
the same `tg_channel_id` and case-insensitively intersecting non-empty
`forward_hashtags` name sets, the returned flag is `false`; (2) if all
channel ids are present and the name sets are pairwise disjoint per channel,
the shared-hashtags check itself passes with `(True, "")`. -/
theorem shared_hashtag_conflicts_detected :
    (∀ (doc : ConfigDoc) (fwds l1 l2 l3 : List ForwarderDoc) (f g : ForwarderDoc)
        (c : ChanId) (v : Bool) (errs : List String),
        validate_config doc = .ok (v, errs) →
        doc.telegram_forwarders = some fwds →
        fwds = l1 ++ f :: (l2 ++ g :: l3) →
        f.tg_channel_id = some c → g.tg_channel_id = some c →
        listInter (sharedNames f) (sharedNames g) ≠ [] →
        v = false) ∧
    (∀ fwds : List ForwarderDoc,
        (∀ f ∈ fwds, (f.tg_channel_id).isSome = true) →
        SharedDisjoint fwds →
        validate_shared_hashtags fwds = .ok (true, "")) := by
  constructor
  · intro doc fwds l1 l2 l3 f g c v errs h hforw hdecomp hf hg hinter
    unfold validate_config at h
    rw [hforw] at h
    rw [show pyLookup (some fwds) "telegram_forwarders" = Except.ok fwds from rfl] at h
    simp only at h
    cases hB : pyLookup doc.openai "openai" with
    | error e => rw [hB] at h; simp only at h; cases h
    | ok oai =>
    rw [hB] at h
    simp only at h
    cases hC : validate_openai_enabled oai with
    | error e => rw [hC] at h; simp only at h; cases h
    | ok p =>
    obtain ⟨v1, e1⟩ := p
    rw [hC] at h
    simp only at h
    cases hD : forwarderLoop fwds "Invalid forwarder configuration:"
        (if v1 = true then [] else [e1]) [] with
    | error e => rw [hD] at h; simp only at h; cases h
    | ok q =>
    obtain ⟨fes1, errors1, combos1⟩ := q
    rw [hD] at h
    simp only at h
    cases hE : validate_shared_hashtags fwds with
    | error e => rw [hE] at h; simp only at h; cases h
    | ok r =>
    obtain ⟨v2, e2⟩ := r
    rw [hE] at h
    simp only [Except.ok.injEq, Prod.mk.injEq] at h
    obtain ⟨h1, h2⟩ := h
    cases v2 with
    | true =>
      have hpw : List.Pairwise SharedR fwds :=
        sharedLoop_pairwise fwds [] e2 hE
      subst hdecomp
      obtain ⟨-, hp2, -⟩ := List.pairwise_append.mp hpw
      obtain ⟨hall, -⟩ := List.pairwise_cons.mp hp2
      have hR : SharedR f g := hall g (by simp)
      exact absurd (hR c hf hg) hinter
    | false =>
      simp only [Bool.false_eq_true, if_false] at h1
      rw [← h1]
      simp
  · intro fwds hsome hpw
    refine sharedLoop_disjoint_ok fwds [] hsome hpw ?_
    intro f hf c hc s hs
    simp [alistGet] at hs

/-- Witness for C6 at concrete documents: `docC5` holds two forwarders on
source channel 1 whose hashtag sets `{#x}` and `{#X}` intersect
case-insensitively, and validation returns `False`; `fwdD1`/`fwdD2` share
channel 7 with disjoint sets `{#a}`/`{#b}` and pass the shared check. -/
theorem shared_hashtag_conflicts_detected_witness :
    (false = false) ∧ validate_shared_hashtags [fwdD1, fwdD2] = .ok (true, "") := by
  constructor
  · exact shared_hashtag_conflicts_detected.1 docC5 [fwdC5a, fwdC5b] [] [] [] fwdC5a fwdC5b
      (.int 1) false
      ["Shared hashtags [x] found for forwarders with tg_channel_id 1. The same message will be forwarded multiple times."]
      rfl rfl rfl rfl rfl (by decide)
  · refine shared_hashtag_conflicts_detected.2 [fwdD1, fwdD2] (by decide) ?_
    refine List.Pairwise.cons ?_ (List.Pairwise.cons (by intro g hg; cases hg) List.Pairwise.nil)
    intro g hg c h1 h2
    have : g = fwdD2 := by
      rcases List.mem_cons.mp hg with h | h
      · exact h
      · cases h
    subst this
    rfl

/-- A successful dictionary access means the key was present with that
value. -/
theorem pyLookup_ok {α : Type} (v : Option α) (k : String) (x : α)
    (h : pyLookup v k = .ok x) : v = some x := by
  cases v with
  | none => simp [pyLookup] at h
  | some a =>
    simp [pyLookup] at h
    rw [h]

/-- The `forward_hashtags`-required check passes (leaving the error list
unchanged) whenever the hashtag list is non-empty or `forward_everything` is
`True`. -/
theorem forwardHashtagsCheck_ok (f : ForwarderDoc) (fes : String) (errors : List String)
    (h : (get_forward_hashtags f).length ≤ 0 → f.forward_everything = some true) :
    forwardHashtagsCheck f fes errors = .ok errors := by
  unfold forwardHashtagsCheck
  by_cases hlen : (get_forward_hashtags f).length ≤ 0
  · rw [if_pos hlen, h hlen]
    simp [pyLookup]
  · rw [if_neg hlen]

/-- The type check passes on integer channel ids. -/
theorem validate_forwarder_types_ok (f : ForwarderDoc) (a b : Int)
    (h1 : f.tg_channel_id = some (.int a)) (h2 : f.discord_channel_id = some (.int b)) :
    validate_forwarder_types f = .ok (true, "") := by
  unfold validate_forwarder_types
  rw [h1, h2]
  simp [pyLookup, chanIsInt]

/-- The duplicate-combination check passes on an unseen combination and
records it. -/
theorem validate_forwarder_combinations_ok (f : ForwarderDoc)
    (combos : List (ChanId × ChanId)) (a b : Int)
    (h1 : f.tg_channel_id = some (.int a)) (h2 : f.discord_channel_id = some (.int b))
    (hnot : (ChanId.int a, ChanId.int b) ∉ combos) :
    validate_forwarder_combinations f combos = .ok (true, "", combos ++ [(.int a, .int b)]) := by
  unfold validate_forwarder_combinations
  rw [h1, h2]
  simp [pyLookup, hnot]

/-- The `mention_everyone`/override check passes when there is no conflict. -/
theorem validate_mention_ok (f : ForwarderDoc) (fh : List HashtagRule)
    (tgc : ChanId) (me : Bool)
    (h1 : f.tg_channel_id = some tgc) (hme : f.mention_everyone = some me)
    (hov : me = true → fh.any (fun t => t.override_mention_everyone.getD false) = false) :
    validate_mention_everyone_and_override f fh = .ok (true, "") := by
  unfold validate_mention_everyone_and_override
  rw [h1, hme]
  simp only [pyLookup]
  cases me with
  | false => simp
  | true => simp [hov rfl]

/-- The forward/excluded overlap check passes on disjoint name sets. -/
theorem validate_overlap_ok (f : ForwarderDoc) (fh eh : List HashtagRule) (tgc : ChanId)
    (h1 : f.tg_channel_id = some tgc)
    (hdisj : listInter (fh.map (fun t => strLower t.name)) (eh.map (fun t => strLower t.name)) = []) :
    validate_hashtags_overlap f fh eh = .ok (true, "") := by
  unfold validate_hashtags_overlap
  rw [h1]
  simp only [pyLookup]
  simp [hdisj]

/-- A forwarder list in which every forwarder passes all per-forwarder checks
and whose channel combinations are fresh and pairwise distinct runs through
the loop without adding any error, extending the combination set by the new
pairs. -/
theorem forwarderLoop_clean (l : List ForwarderDoc) :
    ∀ (fes : String) (errors : List String) (combos : List (ChanId × ChanId)),
      (∀ f ∈ l, ForwarderOK f) →
      List.Pairwise (fun f g => chanPair f ≠ chanPair g) l →
      (∀ f ∈ l, chanPair f ∉ combos) →
      ∃ fes2, forwarderLoop l fes errors combos = .ok (fes2, errors, combos ++ l.map chanPair) := by
  induction l with
  | nil =>
    intro fes errors combos _ _ _
    exact ⟨fes, by simp [forwarderLoop]⟩
  | cons f rest ih =>
    intro fes errors combos hok hpw hnot
    obtain ⟨hname, ⟨a, hta⟩, ⟨b, hdb⟩, ⟨me, hme⟩, hfh, hov, hdisj⟩ :=
      hok f (List.mem_cons_self ..)
    obtain ⟨name, hnm⟩ := Option.isSome_iff_exists.mp hname
    have hcp : chanPair f = (.int a, .int b) := by simp [chanPair, hta, hdb]
    obtain ⟨hR, hpw2⟩ := List.pairwise_cons.mp hpw
    obtain ⟨fes2, hrec⟩ := ih (fes ++ " forwarder name: " ++ name) errors
      (combos ++ [(.int a, .int b)])
      (fun g hg => hok g (List.mem_cons_of_mem _ hg)) hpw2
      (by
        intro g hg hmem
        rcases List.mem_append.mp hmem with hin | hin
        · exact hnot g (List.mem_cons_of_mem _ hg) hin
        · have hgf : chanPair g = chanPair f := by rw [List.mem_singleton.mp hin, hcp]
          exact hR g hg hgf.symm)
    refine ⟨fes2, ?_⟩
    unfold forwarderLoop
    rw [show pyLookup f.forwarder_name "forwarder_name" = .ok name from by simp [pyLookup, hnm]]
    simp only
    rw [forwardHashtagsCheck_ok f (fes ++ " forwarder name: " ++ name) errors hfh]
    simp only
    rw [validate_forwarder_types_ok f a b hta hdb]
    simp only
    rw [validate_forwarder_combinations_ok f combos a b hta hdb
      (by rw [← hcp]; exact hnot f (List.mem_cons_self ..))]
    simp only
    rw [validate_mention_ok f (get_forward_hashtags f) (.int a) me hta hme
      (fun hmeq => hov (by rw [hme, hmeq]))]
    simp only
    rw [validate_overlap_ok f (get_forward_hashtags f) (get_excluded_hashtags f) (.int a) hta hdisj]
    simp only [if_true]
    rw [hrec]
    simp [hcp, List.append_assoc]

/-- Claim C5 (counterexample): `docC5` satisfies every condition listed by the
claim — integer ids, distinct channel combinations, per-forwarder hashtag
disjointness and non-emptiness, no mention conflicts, passing OpenAI check —
yet `validate_config` returns `(False, [error])`, because the two forwarders
share source channel 1 with case-insensitively equal hashtags `#x`/`#X`. -/
theorem per_forwarder_conditions_insufficient :
    [fwdC5a, fwdC5b].all forwarderOKb = true ∧
    ([fwdC5a, fwdC5b].map chanPair).Nodup ∧
    validate_openai_enabled oaiDisabled = .ok (true, "") ∧
    validate_config docC5 = .ok (false,
      ["Shared hashtags [x] found for forwarders with tg_channel_id 1. The same message will be forwarded multiple times."]) ∧
    (false,
      ["Shared hashtags [x] found for forwarders with tg_channel_id 1. The same message will be forwarded multiple times."])
      ≠ ((true, []) : Bool × List String) :=
  ⟨by decide, by decide, rfl, rfl, by decide⟩

/-- Claim C5 (amended): on a document whose forwarder entries carry all their
fields, have integer channel ids, pairwise distinct channel combinations,
disjoint forward/excluded hashtag names, hashtags where required, no mention
conflicts, a passing OpenAI check, *and pairwise disjoint forward-hashtag
sets among forwarders sharing a source channel (invariant I5)*,
`validate_config` returns `(True, [])`. -/
theorem validate_config_valid_lists (doc : ConfigDoc) (fwds : List ForwarderDoc)
    (oai : OpenAIDoc)
    (hforw : doc.telegram_forwarders = some fwds)
    (hoai : doc.openai = some oai)
    (hoaiok : validate_openai_enabled oai = .ok (true, ""))
    (hok : ∀ f ∈ fwds, ForwarderOK f)
    (hpairs : List.Pairwise (fun f g => chanPair f ≠ chanPair g) fwds)
    (hshared : SharedDisjoint fwds) :
    validate_config doc = .ok (true, []) := by
  have hsome : ∀ f ∈ fwds, (f.tg_channel_id).isSome = true := by
    intro f hf
    obtain ⟨-, ⟨a, hta⟩, -⟩ := hok f hf
    rw [hta]
    rfl
  obtain ⟨fes2, hloop⟩ := forwarderLoop_clean fwds "Invalid forwarder configuration:" [] []
    hok hpairs (by intro f hf h; cases h)
  have hshok : validate_shared_hashtags fwds = .ok (true, "") := by
    unfold validate_shared_hashtags
    exact sharedLoop_disjoint_ok fwds [] hsome hshared
      (by intro f hf c hc s hs; simp [alistGet] at hs)
  unfold validate_config
  rw [hforw, hoai]
  rw [show pyLookup (some fwds) "telegram_forwarders" = .ok fwds from rfl,
    show pyLookup (some oai) "openai" = .ok oai from rfl]
  simp only
  rw [hoaiok]
  simp only [if_true]
  rw [hloop]
  simp only
  rw [hshok]
  simp

/-- Witness for the amended C5 theorem at a concrete valid document. -/
theorem validate_config_valid_lists_witness :
    validate_config docOK = .ok (true, []) :=
  validate_config_valid_lists docOK [fwdAlpha] oaiDisabled rfl rfl rfl
    (by
      intro f hf
      have hfa : f = fwdAlpha := by
        rcases List.mem_cons.mp hf with h | h
        · exact h
        · cases h
      subst hfa
      exact ⟨rfl, ⟨1, rfl⟩, ⟨1, rfl⟩, ⟨false, rfl⟩, fun _ => rfl,
        fun h => absurd h (by decide), rfl⟩)
    (List.pairwise_cons.mpr ⟨(fun g hg => by cases hg), List.Pairwise.nil⟩)
    (List.pairwise_cons.mpr ⟨(fun g hg => by cases hg), List.Pairwise.nil⟩)

/-- Claim C7 (counterexample): with a valid forwarder `Alpha` followed by a
forwarder `Beta` that duplicates `Alpha`'s channel combination, the single
error string is prefixed with *both* names — the accumulated
`forwarder_error_string` — not with the offending forwarder `Beta`'s name
alone. -/
theorem forwarder_error_prefix_accumulates :
    validate_config docC7 = .ok (false,
      ["Invalid forwarder configuration: forwarder name: Alpha forwarder name: Beta Invalid configuration: duplicate forwarder with combination (1, 1)"]) ∧
    "Invalid forwarder configuration: forwarder name: Alpha forwarder name: Beta Invalid configuration: duplicate forwarder with combination (1, 1)"
      ≠ "Invalid forwarder configuration: forwarder name: Beta Invalid configuration: duplicate forwarder with combination (1, 1)" :=
  ⟨rfl, by decide⟩

/-- The hashtags-required check either keeps the error list or appends one
error prefixed by the current `forwarder_error_string`. -/
theorem forwardHashtagsCheck_shape (f : ForwarderDoc) (fes : String)
    (errors r : List String) (h : forwardHashtagsCheck f fes errors = .ok r) :
    r = errors ∨ ∃ s, r = errors ++ [fes ++ s] := by
  unfold forwardHashtagsCheck at h
  split at h
  · cases hfe : pyLookup f.forward_everything "forward_everything" with
    | error e => rw [hfe] at h; cases h
    | ok fe =>
      rw [hfe] at h
      simp only at h
      split at h
      · simp only [Except.ok.injEq] at h
        exact Or.inr ⟨" `forward_hashtags` must be set when `forward_everything` is False", h.symm⟩
      · simp only [Except.ok.injEq] at h
        exact Or.inl h.symm
  · simp only [Except.ok.injEq] at h
    exact Or.inl h.symm

/-- Old errors survive a conditional append. -/
theorem ite_append_mem_of_mem (v : Bool) (es : List String) (x e : String)
    (he : e ∈ es) : e ∈ (if v = true then es else es ++ [x]) := by
  cases v <;> simp [he]

/-- An element of a conditional append is an old error or the appended one. -/
theorem mem_ite_append (v : Bool) (es : List String) (x e : String)
    (he : e ∈ (if v = true then es else es ++ [x])) : e ∈ es ∨ e = x := by
  cases v <;> simp_all

/-- Claim C7 (amended): every error emitted by the per-forwarder loop is
prefixed by the accumulated `forwarder name:` tags of all forwarders up to
*and including* the offending one (not by the offending forwarder's name
alone), and all previously accumulated errors survive in the returned list
(errors are aggregated, not raised). -/
theorem forwarder_errors_accumulated_prefix :
    ∀ (l : List ForwarderDoc) (fes : String) (errors : List String)
      (combos : List (ChanId × ChanId)) (fes2 : String) (errors2 : List String)
      (combos2 : List (ChanId × ChanId)),
      forwarderLoop l fes errors combos = .ok (fes2, errors2, combos2) →
      (∀ e ∈ errors, e ∈ errors2) ∧
      (∀ e ∈ errors2, e ∈ errors ∨ ∃ k rest, k < l.length ∧
        e = fesAfter fes ((l.take (k + 1)).map (fun f => f.forwarder_name.getD "")) ++ rest) := by
  intro l
  induction l with
  | nil =>
    intro fes errors combos fes2 errors2 combos2 h
    simp only [forwarderLoop, Except.ok.injEq, Prod.mk.injEq] at h
    obtain ⟨-, h2, -⟩ := h
    subst h2
    exact ⟨fun e he => he, fun e he => Or.inl he⟩
  | cons f rest ih =>
    intro fes errors combos fes2 errors2 combos2 h
    unfold forwarderLoop at h
    cases hn : pyLookup f.forwarder_name "forwarder_name" with
    | error e => rw [hn] at h; simp only at h; cases h
    | ok name =>
    rw [hn] at h
    simp only at h
    have hname : f.forwarder_name = some name := pyLookup_ok _ _ _ hn
    cases hchk : forwardHashtagsCheck f (fes ++ " forwarder name: " ++ name) errors with
    | error e => rw [hchk] at h; simp only at h; cases h
    | ok errors1 =>
    rw [hchk] at h
    simp only at h
    cases ht : validate_forwarder_types f with
    | error e => rw [ht] at h; simp only at h; cases h
    | ok p1 =>
    obtain ⟨v1, err1⟩ := p1
    rw [ht] at h
    simp only at h
    cases hcb : validate_forwarder_combinations f combos with
    | error e => rw [hcb] at h; simp only at h; cases h
    | ok p2 =>
    obtain ⟨v2, err2, combos1⟩ := p2
    rw [hcb] at h
    simp only at h
    cases hm : validate_mention_everyone_and_override f (get_forward_hashtags f) with
    | error e => rw [hm] at h; simp only at h; cases h
    | ok p3 =>
    obtain ⟨v3, err3⟩ := p3
    rw [hm] at h
    simp only at h
    cases ho : validate_hashtags_overlap f (get_forward_hashtags f) (get_excluded_hashtags f) with
    | error e => rw [ho] at h; simp only at h; cases h
    | ok p4 =>
    obtain ⟨v4, err4⟩ := p4
    rw [ho] at h
    simp only at h
    obtain ⟨ihmono, ihshape⟩ := ih _ _ _ _ _ _ h
    have h1mono : ∀ e ∈ errors, e ∈ errors1 := by
      rcases forwardHashtagsCheck_shape f _ errors errors1 hchk with hE | ⟨s, hE⟩
      · rw [hE]
        exact fun e he => he
      · rw [hE]
        exact fun e he => List.mem_append_left _ he
    have hk0 : ∀ (e r : String), e = (fes ++ " forwarder name: " ++ name) ++ r →
        e ∈ errors ∨ ∃ k rest2, k < (f :: rest).length ∧
          e = fesAfter fes (((f :: rest).take (k + 1)).map
            (fun f => f.forwarder_name.getD "")) ++ rest2 := by
      intro e r hr
      right
      refine ⟨0, r, by simp, ?_⟩
      rw [show ((f :: rest).take (0 + 1)).map (fun f => f.forwarder_name.getD "") = [name]
        from by simp [hname]]
      exact hr
    constructor
    · intro e he
      exact ihmono e (ite_append_mem_of_mem v4 _ _ e (ite_append_mem_of_mem v3 _ _ e
        (ite_append_mem_of_mem v2 _ _ e (ite_append_mem_of_mem v1 _ _ e (h1mono e he)))))
    · intro e he2
      rcases ihshape e he2 with hin5 | ⟨k, restStr, hk, heq⟩
      · rcases mem_ite_append _ _ _ _ hin5 with hin4 | hx
        · rcases mem_ite_append _ _ _ _ hin4 with hin3 | hx
          · rcases mem_ite_append _ _ _ _ hin3 with hin2 | hx
            · rcases mem_ite_append _ _ _ _ hin2 with hin1 | hx
              · rcases forwardHashtagsCheck_shape f _ errors errors1 hchk with hE | ⟨s, hE⟩
                · rw [hE] at hin1
                  exact Or.inl hin1
                · rw [hE] at hin1
                  rcases List.mem_append.mp hin1 with hin0 | hin0
                  · exact Or.inl hin0
                  · exact hk0 e s (List.mem_singleton.mp hin0)
              · exact hk0 e (" " ++ err1) (by rw [hx]; exact String.append_assoc _ _ _)
            · exact hk0 e (" " ++ err2) (by rw [hx]; exact String.append_assoc _ _ _)
          · exact hk0 e (" " ++ err3) (by rw [hx]; exact String.append_assoc _ _ _)
        · exact hk0 e (" " ++ err4) (by rw [hx]; exact String.append_assoc _ _ _)
      · right
        refine ⟨k + 1, restStr, by simp only [List.length_cons]; omega, ?_⟩
        rw [heq]
        rw [show ((f :: rest).take (k + 1 + 1)).map (fun f => f.forwarder_name.getD "")
          = name :: ((rest.take (k + 1)).map (fun f => f.forwarder_name.getD ""))
          from by simp [hname]]
        rfl

/-- Witness for the amended C7 theorem: the concrete run over
`[fwdAlpha, fwdBeta]` (one duplicate-combination error against `Beta`). -/
theorem forwarder_errors_accumulated_prefix_witness :
    (∀ e ∈ ([] : List String),
      e ∈ ["Invalid forwarder configuration: forwarder name: Alpha forwarder name: Beta Invalid configuration: duplicate forwarder with combination (1, 1)"]) ∧
    (∀ e ∈ ["Invalid forwarder configuration: forwarder name: Alpha forwarder name: Beta Invalid configuration: duplicate forwarder with combination (1, 1)"],
      e ∈ ([] : List String) ∨ ∃ k rest, k < [fwdAlpha, fwdBeta].length ∧
        e = fesAfter "Invalid forwarder configuration:"
          (([fwdAlpha, fwdBeta].take (k + 1)).map (fun f => f.forwarder_name.getD "")) ++ rest) :=
  forwarder_errors_accumulated_prefix [fwdAlpha, fwdBeta] "Invalid forwarder configuration:"
    [] [] "Invalid forwarder configuration: forwarder name: Alpha forwarder name: Beta"
    ["Invalid forwarder configuration: forwarder name: Alpha forwarder name: Beta Invalid configuration: duplicate forwarder with combination (1, 1)"]
    [(.int 1, .int 1)] rfl

end Bridge
